import Mathlib

/-!
Verification development for the Monte Carlo benchmarking data pipeline.

This file gives a shallow embedding of the pipeline's core Python modules
(`pipeline/schema.py`, `pipeline/utils.py`, `pipeline/combine_batch_parquets.py`,
`pipeline/schema_to_clickhouse.py`) and proves properties of the embedded
definitions.

Modelling conventions:
- Polars cells are modelled by the inductive type `Cell` (null, string, 64-bit
  integer, float, millisecond datetime).  Machine floats are modelled as exact
  rationals (`Rat`); float parsing accepts finite decimal literals (optional
  sign, digits, optional fractional part) and rejects everything else.
- A DataFrame (`DF`) is a header (column name and dtype, in order) together
  with a list of rows; each row is a list of cells aligned with the header.
- Fallible operations (casting, concatenation) return `Option`/`Except`;
  a `none`/`error` models a raised Python exception.
- Rational arithmetic is expressed through `Rat.divInt` so that all
  definitions evaluate by kernel reduction; lemmas relate these to `/` and `*`.
-/

/-! ### Cells and dtypes -/

/-- Polars data types used by the pipeline schema.  `nullT` is the Null dtype
polars assigns to an all-null column. -/
inductive DType
  | datetimeMs
  | utf8
  | int64
  | float64
  | nullT
deriving DecidableEq

/-- A single cell of a Polars column: null, text, integer, float (modelled as
an exact rational) or a millisecond-resolution datetime (epoch offset). -/
inductive Cell
  | null
  | str (s : String)
  | int (n : Int)
  | float (q : Rat)
  | datetime (t : Int)
deriving DecidableEq

/-! ### String parsing (models polars strict casts from Utf8) -/

/-- Numeric value of a decimal digit character. -/
def digitVal (c : Char) : Option Nat :=
  if c.isDigit then some (c.toNat - 48) else none

/-- Accumulate decimal digits; fails on any non-digit character. -/
def parseDigitsAux (acc : Nat) : List Char → Option Nat
  | [] => some acc
  | c :: cs =>
    match digitVal c with
    | some d => parseDigitsAux (acc * 10 + d) cs
    | none => none

/-- Parse a non-empty all-digit character list as a natural number. -/
def parseDigits (cs : List Char) : Option Nat :=
  if cs = [] then none else parseDigitsAux 0 cs

/-- Total decimal value of a digit list (non-digits contribute garbage; only
used after an all-digit check). -/
def digitsVal (acc : Nat) : List Char → Nat
  | [] => acc
  | c :: cs => digitsVal (acc * 10 + (c.toNat - 48)) cs

/-- Parse an optionally signed decimal integer literal, as the strict polars
Utf8 → Int64 cast does.  Rejects anything with a fractional part. -/
def parseIntStr (s : String) : Option Int :=
  match s.toList with
  | '-' :: rest => (parseDigits rest).map (fun n => -(n : Int))
  | '+' :: rest => (parseDigits rest).map (fun n => (n : Int))
  | cs => (parseDigits cs).map (fun n => (n : Int))

/-- Split a character list at the first dot, if any. -/
def splitDot (cs : List Char) : List Char × Option (List Char) :=
  match cs.span (fun c => c != '.') with
  | (ip, []) => (ip, none)
  | (ip, _ :: fp) => (ip, some fp)

/-- Parse an unsigned decimal literal into numerator and power-of-ten
denominator exponent: integer part, optional dot, optional fractional part;
at least one digit overall and no other characters. -/
def parseFloatParts (cs : List Char) : Option (Nat × Nat) :=
  match splitDot cs with
  | (ip, none) => (parseDigits ip).map (fun n => (n, 0))
  | (ip, some fp) =>
    if ip = [] ∧ fp = [] then none
    else if ip.all (fun c => c.isDigit) ∧ fp.all (fun c => c.isDigit) then
      some (digitsVal 0 (ip ++ fp), fp.length)
    else none

/-- Parse an optionally signed finite decimal literal as an exact rational.
Models both Python's `float(...)` on the pipeline's numeric strings and the
strict polars Utf8 → Float64 cast; non-numeric text (such as the sentinel
"NA") fails. -/
def parseFloatStr (s : String) : Option Rat :=
  match s.toList with
  | '+' :: rest => (parseFloatParts rest).map (fun p => Rat.divInt (Int.ofNat p.1) (Int.ofNat (10 ^ p.2)))
  | '-' :: rest => (parseFloatParts rest).map (fun p => Rat.divInt (-(Int.ofNat p.1 : Int)) (Int.ofNat (10 ^ p.2)))
  | cs => (parseFloatParts cs).map (fun p => Rat.divInt (Int.ofNat p.1) (Int.ofNat (10 ^ p.2)))

/-- Days since the Unix epoch of a civil date (proleptic Gregorian). -/
def daysFromCivil (y : Int) (m d : Nat) : Int :=
  let y' : Int := if m ≤ 2 then y - 1 else y
  let era : Int := Int.fdiv y' 400
  let yoe : Int := y' - era * 400
  let doy : Int := Int.ofNat ((153 * (if 2 < m then m - 3 else m + 9) + 2) / 5 + d - 1)
  let doe : Int := yoe * 365 + Int.fdiv yoe 4 - Int.fdiv yoe 100 + doy
  era * 146097 + doe - 719468

/-- Assemble a millisecond epoch timestamp from digit characters, validating
digit-hood and calendar ranges. -/
def dtFromParts (y1 y2 y3 y4 m1 m2 d1 d2 h1 h2 n1 n2 s1 s2 : Char) : Option Int :=
  if [y1, y2, y3, y4, m1, m2, d1, d2, h1, h2, n1, n2, s1, s2].all (fun c => c.isDigit) then
    let y : Nat := digitsVal 0 [y1, y2, y3, y4]
    let mo : Nat := digitsVal 0 [m1, m2]
    let dy : Nat := digitsVal 0 [d1, d2]
    let hh : Nat := digitsVal 0 [h1, h2]
    let mi : Nat := digitsVal 0 [n1, n2]
    let ss : Nat := digitsVal 0 [s1, s2]
    if 1 ≤ mo ∧ mo ≤ 12 ∧ 1 ≤ dy ∧ dy ≤ 31 ∧ hh < 24 ∧ mi < 60 ∧ ss < 60 then
      some ((daysFromCivil (Int.ofNat y) mo dy * 86400
        + Int.ofNat (hh * 3600 + mi * 60 + ss)) * 1000)
    else none
  else none

/-- Parse an ISO-style datetime string ("YYYY-MM-DD" optionally followed by a
space or 'T' separator and "HH:MM:SS") to epoch milliseconds.  Models the
strict polars Utf8 → Datetime("ms") cast, which accepts ISO formats only;
everything else (in particular the sentinel "NA") fails. -/
def parseDatetimeStr (s : String) : Option Int :=
  match s.toList with
  | [y1, y2, y3, y4, '-', m1, m2, '-', d1, d2] =>
    dtFromParts y1 y2 y3 y4 m1 m2 d1 d2 '0' '0' '0' '0' '0' '0'
  | [y1, y2, y3, y4, '-', m1, m2, '-', d1, d2, sep, h1, h2, ':', n1, n2, ':', s1, s2] =>
    if sep = ' ' ∨ sep = 'T' then dtFromParts y1 y2 y3 y4 m1 m2 d1 d2 h1 h2 n1 n2 s1 s2
    else none
  | _ => none

/-! ### Cell-level casting (models strict `Expr.cast`) -/

/-- Decimal text rendering of a rational, used only for the (never
schema-relevant) float → Utf8 cast. -/
def ratRepr (q : Rat) : String :=
  toString q.num ++ "/" ++ toString q.den

/-- Cast one cell to a target dtype, as the strict polars `cast` does:
`none` models a raised ComputeError.  Null casts to null for every target
dtype (polars never fails on nulls and has no nullability enforcement). -/
def castCell : Cell → DType → Option Cell
  | .null, _ => some .null
  | .str s, .utf8 => some (.str s)
  | .str s, .int64 => (parseIntStr s).map Cell.int
  | .str s, .float64 => (parseFloatStr s).map Cell.float
  | .str s, .datetimeMs => (parseDatetimeStr s).map Cell.datetime
  | .str _, .nullT => none
  | .int n, .int64 => some (.int n)
  | .int n, .float64 => some (.float (Rat.divInt n 1))
  | .int n, .utf8 => some (.str (toString n))
  | .int n, .datetimeMs => some (.datetime n)
  | .int _, .nullT => none
  | .float q, .float64 => some (.float q)
  | .float q, .int64 => some (.int (Int.tdiv q.num (q.den : Int)))
  | .float q, .utf8 => some (.str (ratRepr q))
  | .float q, .datetimeMs => some (.datetime (Int.tdiv q.num (q.den : Int)))
  | .float _, .nullT => none
  | .datetime t, .datetimeMs => some (.datetime t)
  | .datetime t, .int64 => some (.int t)
  | .datetime t, .float64 => some (.float (Rat.divInt t 1))
  | .datetime t, .utf8 => some (.str (toString t))
  | .datetime _, .nullT => none

/-! ### DataFrames and the canonical schema (`pipeline/schema.py`) -/

/-- A Polars DataFrame: an ordered header of (column name, dtype) pairs and a
list of rows, each row a list of cells aligned positionally with the header. -/
structure DF where
  header : List (String × DType)
  rows : List (List Cell)
deriving DecidableEq

/-- A schema in the format of `pipeline/schema.py`: an ordered association of
column name to (dtype, allow_na) — insertion-ordered, like a Python dict. -/
abbrev SchemaT : Type := List (String × DType × Bool)

/-- The canonical `SCHEMA` dictionary from `pipeline/schema.py`. -/
def SCHEMA : SchemaT := [
  ("Timestamp", DType.datetimeMs, false),
  ("BatchID", DType.utf8, false),
  ("Method", DType.utf8, false),
  ("Trials", DType.int64, false),
  ("Cycles", DType.int64, false),
  ("Instructions", DType.int64, false),
  ("IPC", DType.float64, false),
  ("Wall Time (s)", DType.float64, false),
  ("Wall Time (ns)", DType.int64, false),
  ("Cache Loads", DType.int64, false),
  ("Cache Misses", DType.int64, false),
  ("Cache Miss %", DType.float64, false),
  ("L1 Loads", DType.int64, false),
  ("L1 Misses", DType.int64, false),
  ("L1 Miss %", DType.float64, false),
  ("L2 Loads", DType.int64, true),
  ("L2 Misses", DType.int64, true),
  ("L2 Miss %", DType.float64, true),
  ("L3 Loads", DType.int64, true),
  ("L3 Misses", DType.int64, true),
  ("L3 Miss %", DType.float64, true),
  ("TLB Loads", DType.int64, false),
  ("TLB Misses", DType.int64, false),
  ("TLB Miss %", DType.float64, false),
  ("Branch Instructions", DType.int64, false),
  ("Branch Misses", DType.int64, false),
  ("Branch Miss %", DType.float64, false),
  ("Misses/Trial", DType.float64, false),
  ("Cycles/Trial", DType.float64, false)]

/-- First schema entry for a column name (Python dict lookup). -/
def lookupSchema : SchemaT → String → Option (DType × Bool)
  | [], _ => none
  | (n, dt, na) :: rest, name =>
    if n = name then some (dt, na) else lookupSchema rest name

/-- Column names of a DataFrame, in order (`df.columns`). -/
def colNames (df : DF) : List String := df.header.map Prod.fst

/-- Schema fields that are not present as columns of the DataFrame, in schema
order (`[c for c in schema if c not in df.columns]`). -/
def missingCols (schema : SchemaT) (df : DF) : List String :=
  (schema.map (fun e => e.1)).filter (fun n => !((colNames df).contains n))

/-- Failure modes of `safe_vector_cast`: the schema-mismatch ValueError with
its printed diagnostic (expected fields, found columns, missing fields), or a
cast error raised by a strict column cast. -/
inductive CastFail
  | schemaMismatch (expected found missing : List String)
  | castError
deriving DecidableEq

/-- The per-column expression of `safe_vector_cast`
(`pipeline/utils.py` lines 64-69): for a schema field, if `allow_na` holds and
the column's current dtype is Utf8, replace the sentinel "NA" by null before
casting; otherwise cast directly.  Columns outside the schema pass through
unchanged. -/
def castEntry (schema : SchemaT) (name : String) (colDt : DType) (c : Cell) : Option Cell :=
  match lookupSchema schema name with
  | none => some c
  | some (dt, allowNa) =>
    if allowNa ∧ colDt = DType.utf8 then
      if c = .str "NA" then some .null else castCell c dt
    else castCell c dt

/-- Apply `castEntry` across one row, positionally aligned with the header.
Fails when any cell cast fails.  Cells beyond the header (resp. a header
beyond the row) pass through, matching column-wise semantics on aligned data. -/
def castCells (schema : SchemaT) : List (String × DType) → List Cell → Option (List Cell)
  | (n, d) :: hs, c :: cs =>
    match castEntry schema n d c, castCells schema hs cs with
    | some c', some cs' => some (c' :: cs')
    | _, _ => none
  | _, cs => some cs

/-- Apply the schema cast to every row; any per-row failure fails the whole
cast, modelling the raised polars error. -/
def castRows (schema : SchemaT) (hdr : List (String × DType)) : List (List Cell) → Option (List (List Cell))
  | [] => some []
  | r :: rs =>
    match castCells schema hdr r, castRows schema hdr rs with
    | some r', some rs' => some (r' :: rs')
    | _, _ => none

/-- Header after `with_columns`: schema columns take their declared dtype,
other columns are untouched; names and order are preserved. -/
def newHeader (schema : SchemaT) (hdr : List (String × DType)) : List (String × DType) :=
  hdr.map (fun p =>
    match lookupSchema schema p.1 with
    | some (dt, _) => (p.1, dt)
    | none => p)

/-- `safe_vector_cast` from `pipeline/utils.py`: check for missing schema
columns (raising the diagnostic ValueError when any are missing), then apply
the per-column cast expressions.  The outer try/except re-raises, so it does
not change the result. -/
def safe_vector_cast (df : DF) (schema : SchemaT) : Except CastFail DF :=
  if missingCols schema df = [] then
    match castRows schema df.header df.rows with
    | some rows => .ok ⟨newHeader schema df.header, rows⟩
    | none => .error .castError
  else
    .error (.schemaMismatch (schema.map (fun e => e.1)) (colNames df) (missingCols schema df))

/-- Whether an `Except` result is a success. -/
def isOkE {ε α : Type} : Except ε α → Bool
  | .ok _ => true
  | .error _ => false

/-- First cell of a row under a given column name, aligned positionally with
the header. -/
def rowCellNamed (hdr : List (String × DType)) (row : List Cell) (name : String) : Option Cell :=
  match hdr, row with
  | (n, _) :: hs, c :: cs => if n = name then some c else rowCellNamed hs cs name
  | _, _ => none

/-- Whether some row of the DataFrame holds the given cell in the column of
the given name. -/
def colHasB (df : DF) (name : String) (c : Cell) : Bool :=
  df.rows.any (fun r => rowCellNamed df.header r name == some c)

/-- Cell at row index `i`, position `j`. -/
def cellAt (df : DF) (i j : Nat) : Option Cell :=
  match df.rows.get? i with
  | some r => r.get? j
  | none => none

/-- The sentinel-to-null substitution `update_parquet` applies to every field
of the raw row before casting (`pipeline/gen_perf_parquet_logs.py` line 136):
`None if v == "NA" else v`. -/
def naToNull (c : Cell) : Cell :=
  if c = .str "NA" then .null else c

/-! ### Division helpers (`pipeline/utils.py`: `safe_div`, `safe_div_percent`) -/

/-- A Python value reaching `safe_div`: a string (CLI inputs arrive as
strings), an int, or a float. -/
inductive PyVal
  | str (s : String)
  | int (n : Int)
  | float (q : Rat)
deriving DecidableEq

/-- Python `float(v)`: succeeds on ints, floats and finite decimal literal
strings; fails (raises ValueError) on other text such as "NA". -/
def pyFloat : PyVal → Option Rat
  | .str s => parseFloatStr s
  | .int n => some (Rat.divInt n 1)
  | .float q => some q

/-- Round-half-to-even of the rational `n / d` (with `d > 0`) to an integer,
as Python's banker's rounding does. -/
def intRoundHalfEven (n d : Int) : Int :=
  let q0 := Int.fdiv n d
  let r := n - q0 * d
  if 2 * r < d then q0
  else if d < 2 * r then q0 + 1
  else if q0 % 2 = 0 then q0 else q0 + 1

/-- Python `round(q, 4)`: banker's rounding to 4 decimal digits. -/
def pyRound4 (q : Rat) : Rat :=
  Rat.divInt (intRoundHalfEven (q.num * 10000) (q.den : Int)) 10000

/-- Exact rational division, written with `Rat.divInt` (see the header note);
`ratDiv_eq_div` below shows it equals `x / y` when `y ≠ 0`. -/
def ratDiv (x y : Rat) : Rat :=
  Rat.divInt (x.num * (y.den : Int)) ((x.den : Int) * y.num)

/-- Multiplication by 100, written with `Rat.divInt`; `ratMul100_eq` below
shows it equals `q * 100`. -/
def ratMul100 (q : Rat) : Rat :=
  Rat.divInt (q.num * 100) (q.den : Int)

/-- `safe_div` from `pipeline/utils.py`: return "NA" when either argument
equals "NA", when either fails `float(...)`, or when the division raises
(zero denominator); otherwise the quotient rounded to 4 decimal digits.
The try/except that converts any raised error into "NA" is modelled by the
fall-through branches. -/
def safe_div (a b : PyVal) : PyVal :=
  if a = .str "NA" ∨ b = .str "NA" then .str "NA"
  else
    match pyFloat a, pyFloat b with
    | some x, some y => if y = 0 then .str "NA" else .float (pyRound4 (ratDiv x y))
    | _, _ => .str "NA"

/-- `safe_div_percent` from `pipeline/utils.py`: as `safe_div`, but the
quotient is multiplied by 100 before rounding. -/
def safe_div_percent (a b : PyVal) : PyVal :=
  if a = .str "NA" ∨ b = .str "NA" then .str "NA"
  else
    match pyFloat a, pyFloat b with
    | some x, some y => if y = 0 then .str "NA" else .float (pyRound4 (ratMul100 (ratDiv x y)))
    | _, _ => .str "NA"

/-- The `ratio` contract exactly as the specification states it: sentinel when
either argument is the sentinel, either fails numeric parsing, or the
denominator is zero; otherwise the true quotient `x / y` rounded to 4 decimal
digits. -/
def ratioSpec (a b : PyVal) : PyVal :=
  match pyFloat a, pyFloat b with
  | some x, some y =>
    if a = .str "NA" ∨ b = .str "NA" ∨ y = 0 then .str "NA"
    else .float (pyRound4 (x / y))
  | _, _ => .str "NA"

/-- The `percentage` contract as the specification states it: identical to
`ratioSpec` with the quotient multiplied by 100 before rounding. -/
def percentageSpec (a b : PyVal) : PyVal :=
  match pyFloat a, pyFloat b with
  | some x, some y =>
    if a = .str "NA" ∨ b = .str "NA" ∨ y = 0 then .str "NA"
    else .float (pyRound4 (x / y * 100))
  | _, _ => .str "NA"

/-! ### Batch merge and global append (`pipeline/combine_batch_parquets.py`) -/

/-- Polars supertype used by `concat(..., how="vertical_relaxed")` to coerce
columns whose dtypes differ: equal dtypes, Null with anything, Int64/Float64,
and Utf8 with a numeric type (modelled for the dtype pairs the pipeline can
produce; unrelated pairs fail, modelling the raised error). -/
def superDType (a b : DType) : Option DType :=
  if a = b then some a
  else
    match a, b with
    | .nullT, d => some d
    | d, .nullT => some d
    | .int64, .float64 => some .float64
    | .float64, .int64 => some .float64
    | .utf8, .int64 => some .utf8
    | .int64, .utf8 => some .utf8
    | .utf8, .float64 => some .utf8
    | .float64, .utf8 => some .utf8
    | _, _ => none

/-- Join two headers for vertical concatenation: the column names must match
in order (vertical concat does not reorder or union column sets); dtypes are
joined by `superDType`. -/
def joinHeaders : List (String × DType) → List (String × DType) → Option (List (String × DType))
  | [], [] => some []
  | (n1, d1) :: t1, (n2, d2) :: t2 =>
    if n1 = n2 then
      match superDType d1 d2, joinHeaders t1 t2 with
      | some d, some t => some ((n1, d) :: t)
      | _, _ => none
    else none
  | _, _ => none

/-- Fold `joinHeaders` over the headers of a list of tables. -/
def foldJoin (h : List (String × DType)) : List DF → Option (List (String × DType))
  | [] => some h
  | t :: ts =>
    match joinHeaders h t.header with
    | some h' => foldJoin h' ts
    | none => none

/-- Adapt one row from its source header to the joined target header: where
the dtype is unchanged the cell passes through; where it was promoted the
cell is cast. -/
def rowAdapt : List (String × DType) → List (String × DType) → List Cell → Option (List Cell)
  | (_, d1) :: s, (_, d2) :: t, c :: cs =>
    match (if d1 = d2 then some c else castCell c d2), rowAdapt s t cs with
    | some x, some xs => some (x :: xs)
    | _, _ => none
  | _, _, cs => some cs

/-- Adapt all rows of one table to the target header. -/
def rowsAdapt (src tgt : List (String × DType)) : List (List Cell) → Option (List (List Cell))
  | [] => some []
  | r :: rs =>
    match rowAdapt src tgt r, rowsAdapt src tgt rs with
    | some r', some rs' => some (r' :: rs')
    | _, _ => none

/-- Adapt every table's rows to the joined header. -/
def adaptAll (tgt : List (String × DType)) : List DF → Option (List (List (List Cell)))
  | [] => some []
  | t :: ts =>
    match rowsAdapt t.header tgt t.rows, adaptAll tgt ts with
    | some rs, some rss => some (rs :: rss)
    | _, _ => none

/-- `pl.concat(tables, how="vertical_relaxed")`: joins the headers, coerces
each table's columns to the joined dtypes, and stacks all rows in input
order.  Fails (`none`) on an empty input list or incompatible headers,
modelling the raised error. -/
def concatVR : List DF → Option DF
  | [] => none
  | t :: ts =>
    match foldJoin t.header ts with
    | none => none
    | some hdr =>
      match adaptAll hdr (t :: ts) with
      | some rowss => some ⟨hdr, rowss.flatten⟩
      | none => none

/-- Sort rank of a cell: polars sorts nulls first; values of the column's own
type follow. -/
def cellRank : Cell → Nat
  | .null => 0
  | .str _ => 2
  | _ => 1

/-- Numeric key of a cell (ints, floats and datetimes compare numerically). -/
def cellNum : Cell → Rat
  | .int n => Rat.divInt n 1
  | .float q => q
  | .datetime t => Rat.divInt t 1
  | _ => 0

/-- String key of a cell. -/
def cellStr : Cell → String
  | .str s => s
  | _ => ""

/-- Total comparison of cells used for sorting by a column: nulls first, then
numeric or lexicographic order within a rank. -/
def cellLe (a b : Cell) : Bool :=
  if cellRank a < cellRank b then true
  else if cellRank b < cellRank a then false
  else if cellRank a = 2 then decide (cellStr a ≤ cellStr b)
  else decide (cellNum a ≤ cellNum b)

/-- Compare two rows by the cell in column position `i`. -/
def rowLe (i : Nat) (r1 r2 : List Cell) : Bool :=
  cellLe (r1.getD i .null) (r2.getD i .null)

/-- Position of the "Timestamp" column in a header. -/
def tsIndex (hdr : List (String × DType)) : Option Nat :=
  hdr.findIdx? (fun p => p.1 == "Timestamp")

/-- `df.sort("Timestamp")`: sort the rows by the Timestamp column, ascending,
nulls first; fails when the column is absent. -/
def sortByTimestamp (df : DF) : Option DF :=
  match tsIndex df.header with
  | none => none
  | some i => some ⟨df.header, List.mergeSort df.rows (rowLe i)⟩

/-- The batch merge (`combine_batch_parquets.py` line 56):
`pl.concat([...], how="vertical_relaxed").sort("Timestamp")`. -/
def batchMerge (tables : List DF) : Option DF :=
  match concatVR tables with
  | none => none
  | some df => sortByTimestamp df

/-- The global append (`combine_batch_parquets.py` lines 62-70): if the store
exists, read it and concatenate the merged batch onto it with
`vertical_relaxed` — with no re-sort — otherwise the merged batch becomes the
store; the result is then written back. -/
def globalAppend (store : Option DF) (merged : DF) : Option DF :=
  match store with
  | none => some merged
  | some db => concatVR [db, merged]

/-- Adjacent-pair sortedness of rows under a row comparison. -/
def sortedRowsBy (le : List Cell → List Cell → Bool) : List (List Cell) → Bool
  | [] => true
  | [_] => true
  | a :: b :: rs => le a b && sortedRowsBy le (b :: rs)

/-- Whether a DataFrame is sorted ascending by its Timestamp column. -/
def sortedByTs (df : DF) : Bool :=
  match tsIndex df.header with
  | none => false
  | some i => sortedRowsBy (rowLe i) df.rows

/-- Outcome of one run of the `combine_batch_parquets.py` script: process
exit code, the merged batch file written (if any), the final state of the
historical store, and the informational messages printed. -/
structure ScriptResult where
  exitCode : Nat
  batchOutput : Option DF
  finalStore : Option DF
  messages : List String
deriving DecidableEq

/-- The `combine_batch_parquets.py` script body, after argument parsing:
with no input files it prints the no-input message and exits with status 0,
writing nothing; otherwise it merges, writes the batch output, appends to the
store and writes it back.  A raised polars error terminates the process with
a nonzero status, leaving the store unchanged. -/
def combineBatchScript (files : List DF) (store : Option DF) : ScriptResult :=
  match files with
  | [] => ⟨0, none, store, ["[ERROR] No .parquet files found"]⟩
  | _ :: _ =>
    match batchMerge files with
    | none => ⟨1, none, store, []⟩
    | some merged =>
      match globalAppend store merged with
      | none => ⟨1, some merged, store, ["[INFO] Merged batch saved"]⟩
      | some db => ⟨0, some merged, some db, ["[INFO] Merged batch saved", "[INFO] Parquet db updated"]⟩

/-! ### DDL projection (`pipeline/schema_to_clickhouse.py`) -/

/-- Names of Polars dtype classes that can reach `polars_to_clickhouse_dtype`
as a class or instance argument (the supported four plus representatives of
unsupported dtypes). -/
inductive PlTypeName
  | utf8
  | stringT
  | int64
  | float64
  | datetime
  | int32
  | uint64
  | boolean
  | date
  | time
  | nullType
deriving DecidableEq

/-- The Python `type(dtype).__name__` of each dtype class. -/
def plTypeNameRepr : PlTypeName → String
  | .utf8 => "Utf8"
  | .stringT => "String"
  | .int64 => "Int64"
  | .float64 => "Float64"
  | .datetime => "Datetime"
  | .int32 => "Int32"
  | .uint64 => "UInt64"
  | .boolean => "Boolean"
  | .date => "Date"
  | .time => "Time"
  | .nullType => "Null"

/-- The duck-typed dtype argument of `polars_to_clickhouse_dtype`: a string
such as "Utf8", a Polars dtype class, or an instantiated dtype (a class is
instantiated first; both are then dispatched on their type name). -/
inductive DtypeArg
  | strArg (s : String)
  | clsArg (t : PlTypeName)
  | instArg (t : PlTypeName)
deriving DecidableEq

/-- The `dtype_map` dictionary for string-typed dtype arguments. -/
def strDtypeMap (s : String) : Option String :=
  if s = "String" then some "String"
  else if s = "Utf8" then some "String"
  else if s = "Int64" then some "Int64"
  else if s = "Float64" then some "Float64"
  else if s = "Datetime" then some "DateTime64(3)"
  else none

/-- The `match dtype_name` arms for class/instance dtype arguments. -/
def nameMatch (s : String) : Option String :=
  if s = "Utf8" ∨ s = "String" then some "String"
  else if s = "Int64" then some "Int64"
  else if s = "Float64" then some "Float64"
  else if s = "Datetime" then some "DateTime64(3)"
  else none

/-- `f"Nullable({ch_type})" if nullable else ch_type`. -/
def wrapNullable (nullable : Bool) (ch : String) : String :=
  if nullable then "Nullable(" ++ ch ++ ")" else ch

/-- `polars_to_clickhouse_dtype` from `pipeline/schema_to_clickhouse.py`:
maps a dtype argument to a ClickHouse column type, wrapping in Nullable when
requested; raises (`error`) on every unsupported dtype. -/
def polars_to_clickhouse_dtype (dtype : DtypeArg) (nullable : Bool) : Except String String :=
  match dtype with
  | .strArg s =>
    match strDtypeMap s with
    | none => .error ("Unsupported string dtype: " ++ s)
    | some ch => .ok (wrapNullable nullable ch)
  | .clsArg t =>
    match nameMatch (plTypeNameRepr t) with
    | none => .error ("Unsupported dtype: " ++ plTypeNameRepr t)
    | some ch => .ok (wrapNullable nullable ch)
  | .instArg t =>
    match nameMatch (plTypeNameRepr t) with
    | none => .error ("Unsupported dtype: " ++ plTypeNameRepr t)
    | some ch => .ok (wrapNullable nullable ch)

/-- The supported semantic types, as the specification enumerates them:
string (Utf8/String), Int64, Float64 and Datetime, in any of the three
argument forms. -/
def supportedDtypeArg : DtypeArg → Bool
  | .strArg s => ["String", "Utf8", "Int64", "Float64", "Datetime"].contains s
  | .clsArg t => [PlTypeName.utf8, .stringT, .int64, .float64, .datetime].contains t
  | .instArg t => [PlTypeName.utf8, .stringT, .int64, .float64, .datetime].contains t

/-! ### Concrete tables used by witnesses and counterexamples -/

/-- The canonical fully-cast header: every schema column under its declared
dtype, in schema order. -/
def exHeader : List (String × DType) := SCHEMA.map (fun e => (e.1, e.2.1))

/-- A well-typed sample cell of each dtype. -/
def canonCell : DType → Cell
  | .datetimeMs => .datetime 1747180800000
  | .utf8 => .str "SIMD"
  | .int64 => .int 7
  | .float64 => .float (Rat.divInt 3 2)
  | .nullT => .null

/-- A full schema-ordered row of well-typed cells, with the named column's
cell replaced by the given one. -/
def rowWith (name : String) (c : Cell) : List Cell :=
  SCHEMA.map (fun e => if e.1 = name then c else canonCell e.2.1)

/-- A table whose non-nullable Utf8 column "BatchID" holds the sentinel. -/
def exDFNA : DF := ⟨exHeader, [rowWith "BatchID" (Cell.str "NA")]⟩

/-- Header of an upstream-produced table whose IPC column is all-null (polars
assigns the Null dtype to an all-None column). -/
def exHeaderNull : List (String × DType) :=
  exHeader.map (fun p => if p.1 = "IPC" then (p.1, DType.nullT) else p)

/-- An upstream-produced table in which the non-nullable column "IPC" holds a
true null, coming from the sentinel-to-null substitution of
`update_parquet`. -/
def exDFNull : DF := ⟨exHeaderNull, [rowWith "IPC" (naToNull (Cell.str "NA"))]⟩

/-- A table whose non-nullable Int64 column "Cycles" holds the sentinel. -/
def exDFCyclesNA : DF := ⟨exHeader, [rowWith "Cycles" (Cell.str "NA")]⟩

/-- A table with every schema column except "IPC". -/
def dfMissingIPC : DF := ⟨exHeader.filter (fun p => p.1 != "IPC"), []⟩

/-- A one-column Timestamp header. -/
def tsHeader : List (String × DType) := [("Timestamp", DType.datetimeMs)]

/-- A historical store holding one row at timestamp 5. -/
def exStore : DF := ⟨tsHeader, [[Cell.datetime 5]]⟩

/-- A finalized batch holding one row at timestamp 3. -/
def exBatch : DF := ⟨tsHeader, [[Cell.datetime 3]]⟩

/-- Per-method table with timestamp 1. -/
def dfT1 : DF := ⟨tsHeader, [[Cell.datetime 1]]⟩

/-- Per-method table with timestamp 2. -/
def dfT2 : DF := ⟨tsHeader, [[Cell.datetime 2]]⟩

/-- Per-method table with timestamp 3. -/
def dfT3 : DF := ⟨tsHeader, [[Cell.datetime 3]]⟩

/-! ### Helper lemmas -/

/-- A successful schema lookup comes from an entry of the schema list. -/
theorem lookupSchema_mem (s : SchemaT) (n : String) (r : DType × Bool)
    (h : lookupSchema s n = some r) : (n, r) ∈ s := by
  induction s with
  | nil => simp [lookupSchema] at h
  | cons e rest ih =>
    obtain ⟨n0, dt0, na0⟩ := e
    by_cases he : n0 = n
    · subst he
      simp [lookupSchema] at h
      rw [← h]
      exact List.mem_cons_self _ _
    · simp [lookupSchema, he] at h
      exact List.mem_cons_of_mem _ (ih h)

/-- No schema entry of the canonical schema is a nullable text field. -/
theorem SCHEMA_no_nullable_utf8 :
    ∀ p ∈ SCHEMA, p.2.2 = true → p.2.1 ≠ DType.utf8 := by decide

/-- No schema entry of the canonical schema has the Null dtype. -/
theorem SCHEMA_no_nullT : ∀ p ∈ SCHEMA, p.2.1 ≠ DType.nullT := by decide

/-- On every non-text, non-Null dtype of a non-nullable canonical-schema
field, the strict cast of the sentinel string fails. -/
theorem SCHEMA_na_uncastable :
    ∀ p ∈ SCHEMA, p.2.2 = false → p.2.1 ≠ DType.utf8 →
      castCell (.str "NA") p.2.1 = none := by decide

/-- Joining a header with itself succeeds and is the identity. -/
theorem joinHeaders_self (h : List (String × DType)) : joinHeaders h h = some h := by
  induction h with
  | nil => rfl
  | cons p t ih =>
    obtain ⟨n, d⟩ := p
    simp [joinHeaders, superDType, ih]

/-- Folding header joins over tables that all share one header yields it. -/
theorem foldJoin_self (h : List (String × DType)) (ts : List DF)
    (hh : ∀ t ∈ ts, t.header = h) : foldJoin h ts = some h := by
  induction ts with
  | nil => rfl
  | cons t rest ih =>
    have ht : t.header = h := hh t (List.mem_cons_self t rest)
    simp [foldJoin, ht, joinHeaders_self]
    exact ih (fun u hu => hh u (List.mem_cons_of_mem _ hu))

/-- Adapting a row between equal headers is the identity. -/
theorem rowAdapt_self (h : List (String × DType)) (r : List Cell) :
    rowAdapt h h r = some r := by
  induction h generalizing r with
  | nil => cases r <;> rfl
  | cons p t ih =>
    obtain ⟨n, d⟩ := p
    cases r with
    | nil => rfl
    | cons c cs => simp [rowAdapt, ih]

/-- Adapting rows between equal headers is the identity. -/
theorem rowsAdapt_self (h : List (String × DType)) (rs : List (List Cell)) :
    rowsAdapt h h rs = some rs := by
  induction rs with
  | nil => rfl
  | cons r rest ih => simp [rowsAdapt, rowAdapt_self, ih]

/-- Adapting all tables that already carry the target header keeps each
table's rows. -/
theorem adaptAll_self (h : List (String × DType)) (ts : List DF)
    (hh : ∀ t ∈ ts, t.header = h) : adaptAll h ts = some (ts.map DF.rows) := by
  induction ts with
  | nil => rfl
  | cons t rest ih =>
    have ht : t.header = h := hh t (List.mem_cons_self t rest)
    have hra : rowsAdapt t.header h t.rows = some t.rows := by
      rw [ht]; exact rowsAdapt_self h t.rows
    have ih' := ih (fun u hu => hh u (List.mem_cons_of_mem _ hu))
    simp [adaptAll, hra, ih']

/-- Vertical-relaxed concatenation of same-header tables just stacks all rows
under the shared header. -/
theorem concatVR_const (h : List (String × DType)) (t : DF) (ts : List DF)
    (hh : ∀ u ∈ t :: ts, u.header = h) :
    concatVR (t :: ts) = some ⟨h, ((t :: ts).map DF.rows).flatten⟩ := by
  have ht : t.header = h := hh t (List.mem_cons_self t ts)
  have hfold : foldJoin t.header ts = some h := by
    rw [ht]; exact foldJoin_self h ts (fun u hu => hh u (List.mem_cons_of_mem _ hu))
  have hadapt : adaptAll h (t :: ts) = some ((t :: ts).map DF.rows) := adaptAll_self h _ hh
  simp [concatVR, hfold, hadapt]

/-! ### Claim C3 -/

/-- C3 counterexample: appending a batch whose timestamp (3) precedes the
stored row's timestamp (5) yields a store that is NOT sorted by Timestamp
ascending — the global append performs no re-sort, contrary to the claim. -/
theorem global_append_not_resorted_counterexample :
    globalAppend (some exStore) exBatch
      = some ⟨tsHeader, [[Cell.datetime 5], [Cell.datetime 3]]⟩
    ∧ sortedByTs ⟨tsHeader, [[Cell.datetime 5], [Cell.datetime 3]]⟩ = false := by
  exact ⟨rfl, rfl⟩

/-- C3 (amended): for an existing store and a batch with the same header, the
global append reads the store, concatenates the batch onto it under the
vertical-relaxed rule, and writes back the concatenation in order — prior
store rows first, then batch rows — with no re-sort by Timestamp. -/
theorem global_append_concats_without_sort (S B : DF) (h : S.header = B.header) :
    globalAppend (some S) B = some ⟨S.header, S.rows ++ B.rows⟩ := by
  have hh : ∀ u ∈ [S, B], u.header = S.header := by
    intro u hu
    simp only [List.mem_cons, List.mem_singleton, List.not_mem_nil, or_false] at hu
    rcases hu with rfl | rfl
    · rfl
    · exact h.symm
  have := concatVR_const S.header S [B] hh
  simpa [globalAppend] using this

/-- C3 witness: the amended statement applied to the concrete store and
batch. -/
theorem global_append_concats_without_sort_witness :
    globalAppend (some exStore) exBatch = some ⟨exStore.header, exStore.rows ++ exBatch.rows⟩ :=
  global_append_concats_without_sort exStore exBatch rfl

/-! ### Claim C4 -/

/-- C4: appending batch B to an existing store S (same header, as all
pipeline tables share the schema header) and reading the store back yields a
table whose row count is the old count plus B's count, and whose rows include
every row of S and every row of B — no stored row is lost. -/
theorem global_append_preserves_rows (S B : DF) (h : S.header = B.header) :
    ∃ R, globalAppend (some S) B = some R
      ∧ R.rows.length = S.rows.length + B.rows.length
      ∧ (∀ r ∈ S.rows, r ∈ R.rows)
      ∧ (∀ r ∈ B.rows, r ∈ R.rows) := by
  refine ⟨⟨S.header, S.rows ++ B.rows⟩, global_append_concats_without_sort S B h, ?_, ?_, ?_⟩
  · simp
  · intro r hr; simp [hr]
  · intro r hr; simp [hr]

/-- C4 witness: the append-preserves-rows statement at the concrete store and
batch. -/
theorem global_append_preserves_rows_witness :
    ∃ R, globalAppend (some exStore) exBatch = some R
      ∧ R.rows.length = exStore.rows.length + exBatch.rows.length
      ∧ (∀ r ∈ exStore.rows, r ∈ R.rows)
      ∧ (∀ r ∈ exBatch.rows, r ∈ R.rows) :=
  global_append_preserves_rows exStore exBatch rfl

/-! ### Claim C5 -/

/-- C5: when any schema field is missing from the table's columns,
`safe_vector_cast` fails with the schema-mismatch error whose diagnostic
carries the schema's full expected field list, the table's actual columns,
and the missing fields; and the missing list contains exactly every schema
field absent from the table. -/
theorem safe_vector_cast_missing_fails (df : DF) (schema : SchemaT)
    (h : missingCols schema df ≠ []) :
    safe_vector_cast df schema
      = .error (.schemaMismatch (schema.map (fun e => e.1)) (colNames df) (missingCols schema df))
    ∧ (∀ n, n ∈ schema.map (fun e => e.1) → n ∉ colNames df → n ∈ missingCols schema df) := by
  constructor
  · simp [safe_vector_cast, h]
  · intro n hn hnot
    simp [missingCols, List.mem_filter, hn]
    exact hnot

/-- C5 witness: a table missing the "IPC" column fails with the mismatch
error, and "IPC" is among the missing fields it reports. -/
theorem safe_vector_cast_missing_fails_witness :
    safe_vector_cast dfMissingIPC SCHEMA
      = .error (.schemaMismatch (SCHEMA.map (fun e => e.1)) (colNames dfMissingIPC)
          (missingCols SCHEMA dfMissingIPC))
    ∧ "IPC" ∈ missingCols SCHEMA dfMissingIPC :=
  ⟨(safe_vector_cast_missing_fails dfMissingIPC SCHEMA (by decide)).1,
   (safe_vector_cast_missing_fails dfMissingIPC SCHEMA (by decide)).2 "IPC" (by decide) (by decide)⟩

/-! ### Claim C8 -/

/-- C8: for every dtype argument outside the supported semantic types
(string/Utf8, Int64, Float64, Datetime) — in any of its three accepted forms
— the DDL projection raises rather than returning a column type; it never
silently defaults to a string type. -/
theorem ddl_unsupported_dtype_fails (d : DtypeArg) (nullable : Bool)
    (h : supportedDtypeArg d = false) :
    isOkE (polars_to_clickhouse_dtype d nullable) = false := by
  cases d with
  | strArg s =>
    simp [supportedDtypeArg] at h
    have hmap : strDtypeMap s = none := by
      simp [strDtypeMap, h.1, h.2.1, h.2.2.1, h.2.2.2.1, h.2.2.2.2]
    simp [polars_to_clickhouse_dtype, hmap, isOkE]
  | clsArg t => cases t <;> simp_all [supportedDtypeArg, polars_to_clickhouse_dtype, nameMatch, plTypeNameRepr, isOkE]
  | instArg t => cases t <;> simp_all [supportedDtypeArg, polars_to_clickhouse_dtype, nameMatch, plTypeNameRepr, isOkE]

/-- C8 witness: the Int32 dtype instance is unsupported and the projection
rejects it. -/
theorem ddl_unsupported_dtype_fails_witness :
    supportedDtypeArg (.instArg .int32) = false
    ∧ isOkE (polars_to_clickhouse_dtype (.instArg .int32) true) = false :=
  ⟨by decide, ddl_unsupported_dtype_fails (.instArg .int32) true (by decide)⟩

/-! ### Claim C9 -/

/-- C9: with no input files at merge time, the combine script prints the
no-input message and terminates with exit status 0, writes no merged output,
and leaves the historical store unchanged — a non-fatal outcome, unlike the
fatal (nonzero-status) merge and append failure paths of the same script. -/
theorem combine_empty_input_non_fatal (store : Option DF) :
    combineBatchScript [] store
      = ⟨0, none, store, ["[ERROR] No .parquet files found"]⟩ := by
  rfl

/-! ### Claim C2 -/

/-- The numerator of a rational, as a rational, is the rational times its
denominator. -/
theorem rat_num_eq_mul_den (q : Rat) : (q.num : Rat) = q * (q.den : Rat) := by
  have h := Rat.num_div_den q
  have hd : ((q.den : Rat)) ≠ 0 := by exact_mod_cast q.den_nz
  rw [div_eq_iff hd] at h
  exact h

/-- `ratDiv` computes the true quotient. -/
theorem ratDiv_eq_div (x y : Rat) (hy : y ≠ 0) : ratDiv x y = x / y := by
  have hxden : ((x.den : Rat)) ≠ 0 := by exact_mod_cast x.den_nz
  have hynum : ((y.num : Rat)) ≠ 0 := by exact_mod_cast Rat.num_ne_zero.mpr hy
  rw [ratDiv, Rat.divInt_eq_div]
  push_cast
  rw [div_eq_div_iff (mul_ne_zero hxden hynum) hy]
  rw [rat_num_eq_mul_den x, rat_num_eq_mul_den y]
  ring

/-- `ratMul100` computes multiplication by 100. -/
theorem ratMul100_eq (q : Rat) : ratMul100 q = q * 100 := by
  have hqden : ((q.den : Rat)) ≠ 0 := by exact_mod_cast q.den_nz
  rw [ratMul100, Rat.divInt_eq_div]
  push_cast
  rw [div_eq_iff hqden]
  rw [rat_num_eq_mul_den q]
  ring

/-- C2: `safe_div` returns the sentinel "NA" (and, being a total function,
never raises) exactly when either argument equals the sentinel, either fails
numeric parsing, or the denominator is zero, and otherwise returns the true
quotient rounded to 4 decimal digits; `safe_div_percent` satisfies the
identical contract with the quotient multiplied by 100 before rounding. -/
theorem safe_div_matches_contract (a b : PyVal) :
    safe_div a b = ratioSpec a b ∧ safe_div_percent a b = percentageSpec a b := by
  rcases h1 : pyFloat a with _ | x <;> rcases h2 : pyFloat b with _ | y
  · constructor <;> simp only [safe_div, safe_div_percent, ratioSpec, percentageSpec, h1, h2] <;>
      split_ifs <;> rfl
  · constructor <;> simp only [safe_div, safe_div_percent, ratioSpec, percentageSpec, h1, h2] <;>
      split_ifs <;> rfl
  · constructor <;> simp only [safe_div, safe_div_percent, ratioSpec, percentageSpec, h1, h2] <;>
      split_ifs <;> rfl
  · have hnaA : ¬ a = PyVal.str "NA" := by
      rintro rfl
      have hh : pyFloat (PyVal.str "NA") = none := rfl
      rw [hh] at h1
      exact Option.noConfusion h1
    have hnaB : ¬ b = PyVal.str "NA" := by
      rintro rfl
      have hh : pyFloat (PyVal.str "NA") = none := rfl
      rw [hh] at h2
      exact Option.noConfusion h2
    by_cases hy : y = 0
    · constructor <;>
        simp only [safe_div, safe_div_percent, ratioSpec, percentageSpec, h1, h2, hnaA, hnaB,
          hy, false_or, or_false, if_true, if_false, ite_true, ite_false]
    · constructor <;>
        simp only [safe_div, safe_div_percent, ratioSpec, percentageSpec, h1, h2, hnaA, hnaB,
          false_or, or_false] <;>
        split_ifs <;> simp_all [ratDiv_eq_div x y hy, ratMul100_eq]

/-! ### Cast-engine lemmas -/

/-- A null cell casts to null under every target dtype. -/
theorem castCell_null (dt : DType) : castCell Cell.null dt = some Cell.null := by
  cases dt <;> rfl

/-- Cell casting is idempotent: a cast output casts to itself. -/
theorem castCell_idem (c : Cell) (dt : DType) (c' : Cell) (h : castCell c dt = some c') :
    castCell c' dt = some c' := by
  cases c <;> cases dt <;>
    simp only [castCell, Option.map_eq_some', Option.some.injEq] at h <;>
    first
      | (obtain ⟨v, hv, rfl⟩ := h; rfl)
      | (rw [← h]; rfl)
      | exact absurd h (by simp)

/-- A successful cast to a non-text, non-Null dtype never yields a string
cell. -/
theorem castCell_not_str (c : Cell) (dt : DType) (c' : Cell) (s : String)
    (hne : dt ≠ DType.utf8) (hnn : dt ≠ DType.nullT) (h : castCell c dt = some c') :
    c' ≠ Cell.str s := by
  cases c <;> cases dt <;>
    simp only [castCell, Option.map_eq_some', Option.some.injEq] at h <;>
    first
      | exact absurd rfl hne
      | exact absurd rfl hnn
      | (obtain ⟨v, hv, rfl⟩ := h; simp)
      | (rw [← h]; simp)
      | exact absurd h (by simp)

/-- The per-column cast expression maps a true null to null for every schema,
column name and column dtype — nullability is never enforced on nulls. -/
theorem castEntry_null (schema : SchemaT) (name : String) (colDt : DType) :
    castEntry schema name colDt Cell.null = some Cell.null := by
  unfold castEntry
  cases hl : lookupSchema schema name with
  | none => rfl
  | some r =>
    obtain ⟨dt, na⟩ := r
    by_cases hcond : na = true ∧ colDt = DType.utf8
    · simp [hcond, castCell_null]
    · simp [hcond, castCell_null]

/-- If a row holds, under some non-nullable schema column, a cell whose
direct cast fails, the whole row cast fails. -/
theorem castCells_fail_on_bad_named (schema : SchemaT) (name : String) (dt : DType) (c : Cell)
    (hl : lookupSchema schema name = some (dt, false)) (hc : castCell c dt = none) :
    ∀ hdr r, rowCellNamed hdr r name = some c → castCells schema hdr r = none := by
  intro hdr
  induction hdr with
  | nil => intro r hr; simp [rowCellNamed] at hr
  | cons p hs ih =>
    obtain ⟨n, d⟩ := p
    intro r hr
    cases r with
    | nil => simp [rowCellNamed] at hr
    | cons c0 cs =>
      by_cases hn : n = name
      · subst hn
        simp [rowCellNamed] at hr
        have he : castEntry schema n d c0 = none := by
          simp only [castEntry, hl, Bool.false_eq_true, false_and, if_false, ite_false]
          rw [hr]
          exact hc
        simp [castCells, he]
      · simp [rowCellNamed, hn] at hr
        have hrec := ih cs hr
        cases he : castEntry schema n d c0 <;> simp [castCells, he, hrec]

/-- One failing row fails the whole table cast. -/
theorem castRows_none_of_mem (schema : SchemaT) (hdr : List (String × DType)) :
    ∀ rows r, r ∈ rows → castCells schema hdr r = none → castRows schema hdr rows = none := by
  intro rows
  induction rows with
  | nil => intro r hr; simp at hr
  | cons r0 rs ih =>
    intro r hr hfail
    rcases List.mem_cons.mp hr with rfl | hmem
    · simp [castRows, hfail]
    · have hrec := ih r hmem hfail
      cases h0 : castCells schema hdr r0 <;> simp [castRows, h0, hrec]

/-- Every output row of a table cast comes from casting some input row. -/
theorem castRows_mem (schema : SchemaT) (hdr : List (String × DType)) :
    ∀ rows rows', castRows schema hdr rows = some rows' →
      ∀ r' ∈ rows', ∃ r ∈ rows, castCells schema hdr r = some r' := by
  intro rows
  induction rows with
  | nil =>
    intro rows' h r' hr'
    simp [castRows] at h
    subst h
    simp at hr'
  | cons r0 rs ih =>
    intro rows' h r' hr'
    cases h0 : castCells schema hdr r0 with
    | none => simp [castRows, h0] at h
    | some r0' =>
      cases h1 : castRows schema hdr rs with
      | none => simp [castRows, h0, h1] at h
      | some rs' =>
        simp [castRows, h0, h1] at h
        subst h
        rcases List.mem_cons.mp hr' with rfl | hmem
        · exact ⟨r0, List.mem_cons_self _ _, h0⟩
        · obtain ⟨r, hrmem, hrc⟩ := ih rs' h1 r' hmem
          exact ⟨r, List.mem_cons_of_mem _ hrmem, hrc⟩

/-- After a successful row cast, the column of a non-nullable, non-text,
non-Null schema field never holds the sentinel string. -/
theorem castCells_named_not_NA (schema : SchemaT) (name : String) (dt : DType)
    (hl : lookupSchema schema name = some (dt, false)) (hne : dt ≠ DType.utf8)
    (hnn : dt ≠ DType.nullT) :
    ∀ hdr r r', castCells schema hdr r = some r' →
      rowCellNamed (newHeader schema hdr) r' name ≠ some (Cell.str "NA") := by
  intro hdr
  induction hdr with
  | nil =>
    intro r r' h
    simp [castCells] at h
    subst h
    simp [newHeader, rowCellNamed]
  | cons p hs ih =>
    obtain ⟨n, d⟩ := p
    intro r r' h
    cases r with
    | nil =>
      simp [castCells] at h
      subst h
      simp [rowCellNamed]
    | cons c cs =>
      cases he : castEntry schema n d c with
      | none => simp [castCells, he] at h
      | some c0 =>
        cases hcs : castCells schema hs cs with
        | none => simp [castCells, he, hcs] at h
        | some cs0 =>
          simp [castCells, he, hcs] at h
          subst h
          by_cases hn : n = name
          · subst hn
            have hc0 : castCell c dt = some c0 := by
              simp only [castEntry, hl, Bool.false_eq_true, false_and, if_false, ite_false] at he
              exact he
            have hnot := castCell_not_str c dt c0 "NA" hne hnn hc0
            simp [newHeader, rowCellNamed, hl]
            exact fun hcon => absurd hcon hnot
          · have hrec := ih cs cs0 hcs
            cases hl2 : lookupSchema schema n with
            | none => simp [newHeader, rowCellNamed, hl2, hn]; simpa [newHeader] using hrec
            | some r2 =>
              obtain ⟨dt2, na2⟩ := r2
              simp [newHeader, rowCellNamed, hl2, hn]
              simpa [newHeader] using hrec

/-- `with_columns` preserves column names and their order. -/
theorem newHeader_names (schema : SchemaT) (hdr : List (String × DType)) :
    (newHeader schema hdr).map Prod.fst = hdr.map Prod.fst := by
  induction hdr with
  | nil => rfl
  | cons p t ih =>
    obtain ⟨n, d⟩ := p
    cases hl : lookupSchema schema n <;> simp [newHeader, hl] <;>
      simpa [newHeader] using ih

/-- The header rewrite of the cast is idempotent. -/
theorem newHeader_idem (schema : SchemaT) (hdr : List (String × DType)) :
    newHeader schema (newHeader schema hdr) = newHeader schema hdr := by
  induction hdr with
  | nil => rfl
  | cons p t ih =>
    obtain ⟨n, d⟩ := p
    cases hl : lookupSchema schema n with
    | none => simp [newHeader, hl]; simpa [newHeader] using ih
    | some r =>
      obtain ⟨dt, na⟩ := r
      simp [newHeader, hl]
      simpa [newHeader] using ih

/-- Row casting is idempotent over a schema with no nullable text field:
casting an already-cast row under the rewritten header reproduces it. -/
theorem castCells_idem (schema : SchemaT)
    (hnu : ∀ n dt, lookupSchema schema n = some (dt, true) → dt ≠ DType.utf8) :
    ∀ hdr r r', castCells schema hdr r = some r' →
      castCells schema (newHeader schema hdr) r' = some r' := by
  intro hdr
  induction hdr with
  | nil =>
    intro r r' h
    simp [castCells] at h
    subst h
    simp [castCells, newHeader]
  | cons p hs ih =>
    obtain ⟨n, d⟩ := p
    intro r r' h
    cases r with
    | nil =>
      simp [castCells] at h
      subst h
      simp [castCells]
    | cons c cs =>
      cases he : castEntry schema n d c with
      | none => simp [castCells, he] at h
      | some c0 =>
        cases hcs : castCells schema hs cs with
        | none => simp [castCells, he, hcs] at h
        | some cs0 =>
          simp [castCells, he, hcs] at h
          subst h
          have hrec := ih cs cs0 hcs
          cases hl : lookupSchema schema n with
          | none =>
            have hid : castEntry schema n d c = some c := by
              simp [castEntry, hl]
            rw [hid] at he
            have h2 : castEntry schema n d c0 = some c0 := by
              simp only [Option.some.injEq] at he
              rw [← he]
              simp [castEntry, hl]
            have hnh : newHeader schema ((n, d) :: hs) = (n, d) :: newHeader schema hs := by
              simp [newHeader, hl]
            rw [hnh]
            simp [castCells, h2, hrec]
          | some r0 =>
            obtain ⟨dt, na⟩ := r0
            have hcond : ¬ (na = true ∧ dt = DType.utf8) := by
              rintro ⟨hna, hdt⟩
              rw [hna] at hl
              exact hnu n dt hl hdt
            have hcast : castCell c0 dt = some c0 := by
              simp only [castEntry, hl] at he
              by_cases hb : na = true ∧ d = DType.utf8
              · rw [if_pos hb] at he
                by_cases hcNA : c = Cell.str "NA"
                · rw [if_pos hcNA] at he
                  simp only [Option.some.injEq] at he
                  rw [← he]
                  exact castCell_null dt
                · rw [if_neg hcNA] at he
                  exact castCell_idem c dt c0 he
              · rw [if_neg hb] at he
                exact castCell_idem c dt c0 he
            have h2 : castEntry schema n dt c0 = some c0 := by
              simp only [castEntry, hl]
              rw [if_neg hcond]
              exact hcast
            have hnh : newHeader schema ((n, d) :: hs) = (n, dt) :: newHeader schema hs := by
              simp [newHeader, hl]
            rw [hnh]
            simp [castCells, h2, hrec]

/-- Table-row casting is idempotent over a schema with no nullable text
field. -/
theorem castRows_idem (schema : SchemaT)
    (hnu : ∀ n dt, lookupSchema schema n = some (dt, true) → dt ≠ DType.utf8)
    (hdr : List (String × DType)) :
    ∀ rows rows', castRows schema hdr rows = some rows' →
      castRows schema (newHeader schema hdr) rows' = some rows' := by
  intro rows
  induction rows with
  | nil =>
    intro rows' h
    simp [castRows] at h
    subst h
    rfl
  | cons r0 rs ih =>
    intro rows' h
    cases h0 : castCells schema hdr r0 with
    | none => simp [castRows, h0] at h
    | some r0' =>
      cases h1 : castRows schema hdr rs with
      | none => simp [castRows, h0, h1] at h
      | some rs' =>
        simp [castRows, h0, h1] at h
        subst h
        have hc := castCells_idem schema hnu hdr r0 r0' h0
        have hr := ih rs' h1
        simp [castRows, hc, hr]

/-- Row casting preserves row indices, and a null cell stays null at its
position. -/
theorem castCells_get_null (schema : SchemaT) :
    ∀ hdr r r' j, castCells schema hdr r = some r' →
      r.get? j = some Cell.null → r'.get? j = some Cell.null := by
  intro hdr
  induction hdr with
  | nil =>
    intro r r' j h hj
    simp [castCells] at h
    subst h
    exact hj
  | cons p hs ih =>
    obtain ⟨n, d⟩ := p
    intro r r' j h hj
    cases r with
    | nil => simp at hj
    | cons c cs =>
      cases he : castEntry schema n d c with
      | none => simp [castCells, he] at h
      | some c0 =>
        cases hcs : castCells schema hs cs with
        | none => simp [castCells, he, hcs] at h
        | some cs0 =>
          simp [castCells, he, hcs] at h
          subst h
          cases j with
          | zero =>
            rw [List.get?_cons_zero] at hj
            simp only [Option.some.injEq] at hj
            subst hj
            rw [castEntry_null] at he
            simp only [Option.some.injEq] at he
            rw [List.get?_cons_zero, ← he]
          | succ j' =>
            rw [List.get?_cons_succ] at hj
            rw [List.get?_cons_succ]
            exact ih cs cs0 j' hcs hj

/-- Table casting preserves row indices: the output row at an index is the
cast of the input row at that index. -/
theorem castRows_get (schema : SchemaT) (hdr : List (String × DType)) :
    ∀ rows rows' i r, castRows schema hdr rows = some rows' →
      rows.get? i = some r →
      ∃ r', rows'.get? i = some r' ∧ castCells schema hdr r = some r' := by
  intro rows
  induction rows with
  | nil => intro rows' i r h hi; simp at hi
  | cons r0 rs ih =>
    intro rows' i r h hi
    cases h0 : castCells schema hdr r0 with
    | none => simp [castRows, h0] at h
    | some r0' =>
      cases h1 : castRows schema hdr rs with
      | none => simp [castRows, h0, h1] at h
      | some rs' =>
        simp [castRows, h0, h1] at h
        subst h
        cases i with
        | zero =>
          rw [List.get?_cons_zero] at hi
          simp only [Option.some.injEq] at hi
          subst hi
          exact ⟨r0', by rw [List.get?_cons_zero], h0⟩
        | succ i' =>
          rw [List.get?_cons_succ] at hi
          obtain ⟨r', hr1, hr2⟩ := ih rs' i' r h1 hi
          exact ⟨r', by rw [List.get?_cons_succ]; exact hr1, hr2⟩

/-! ### Claim C1 -/

/-- C1 counterexample: the canonical schema declares "BatchID" as a
non-nullable text field; a table whose BatchID column holds the sentinel
string "NA" is cast SUCCESSFULLY (the cast does not fail), and the sentinel
is still present in that non-nullable column of the output — refuting both
halves of the claim as stated. -/
theorem sentinel_in_nonnullable_text_counterexample :
    lookupSchema SCHEMA "BatchID" = some (DType.utf8, false)
    ∧ colHasB exDFNA "BatchID" (Cell.str "NA") = true
    ∧ safe_vector_cast exDFNA SCHEMA = .ok exDFNA := by
  exact ⟨rfl, rfl, rfl⟩

/-- C1 (amended): for every non-nullable canonical-schema field of NON-TEXT
declared type (Int64, Float64 or Datetime), casting a table whose column
holds the sentinel "NA" always fails, and after a successful cast such a
column never contains the sentinel.  (Non-nullable Utf8 fields — BatchID,
Method — pass the sentinel through unchanged; see the counterexample.) -/
theorem sentinel_cast_nonnullable_nontext :
    (∀ (df : DF) (name : String) (dt : DType),
      lookupSchema SCHEMA name = some (dt, false) → dt ≠ DType.utf8 →
      colHasB df name (Cell.str "NA") = true →
      isOkE (safe_vector_cast df SCHEMA) = false)
    ∧ (∀ (df out : DF) (name : String) (dt : DType),
      safe_vector_cast df SCHEMA = .ok out →
      lookupSchema SCHEMA name = some (dt, false) → dt ≠ DType.utf8 →
      colHasB out name (Cell.str "NA") = false) := by
  constructor
  · intro df name dt hl hdt hhas
    by_cases hm : missingCols SCHEMA df = []
    · have hmem := lookupSchema_mem SCHEMA name (dt, false) hl
      have hcast : castCell (Cell.str "NA") dt = none :=
        SCHEMA_na_uncastable (name, dt, false) hmem rfl hdt
      obtain ⟨r, hrmem, hrc⟩ :
          ∃ r ∈ df.rows, rowCellNamed df.header r name = some (Cell.str "NA") := by
        simpa [colHasB, List.any_eq_true, beq_iff_eq] using hhas
      have hcc := castCells_fail_on_bad_named SCHEMA name dt (Cell.str "NA") hl hcast df.header r hrc
      have hrows := castRows_none_of_mem SCHEMA df.header df.rows r hrmem hcc
      simp [safe_vector_cast, hm, hrows, isOkE]
    · simp [safe_vector_cast, hm, isOkE]
  · intro df out name dt hok hl hdt
    have hmem := lookupSchema_mem SCHEMA name (dt, false) hl
    have hnn : dt ≠ DType.nullT := SCHEMA_no_nullT (name, dt, false) hmem
    have hm : missingCols SCHEMA df = [] := by
      by_contra hm
      simp [safe_vector_cast, hm] at hok
    rw [safe_vector_cast, if_pos hm] at hok
    cases hcr : castRows SCHEMA df.header df.rows with
    | none => rw [hcr] at hok; simp at hok
    | some rows' =>
      rw [hcr] at hok
      simp only [Except.ok.injEq] at hok
      rw [← hok]
      simp only [colHasB, List.any_eq_false]
      intro r' hr'
      obtain ⟨r, hrmem, hrc⟩ := castRows_mem SCHEMA df.header df.rows rows' hcr r' hr'
      have := castCells_named_not_NA SCHEMA name dt hl hdt hnn df.header r r' hrc
      simp [beq_eq_false_iff_ne]
      exact this

/-- C1 witness: the sentinel in the non-nullable Int64 column "Cycles" makes
the cast fail, and a successfully cast table has no sentinel in that
column. -/
theorem sentinel_cast_nonnullable_nontext_witness :
    isOkE (safe_vector_cast exDFCyclesNA SCHEMA) = false
    ∧ colHasB ⟨exHeader, [rowWith "IPC" Cell.null]⟩ "Cycles" (Cell.str "NA") = false :=
  ⟨sentinel_cast_nonnullable_nontext.1 exDFCyclesNA "Cycles" DType.int64 (by decide) (by decide)
     (by decide),
   sentinel_cast_nonnullable_nontext.2 exDFNull ⟨exHeader, [rowWith "IPC" Cell.null]⟩ "Cycles"
     DType.int64 (by rfl) (by decide) (by decide)⟩

/-! ### Claim C7 -/

/-- C7: casting is idempotent for the canonical schema — applying
`safe_vector_cast` to the result of a successful `safe_vector_cast` yields a
table equal to its input. -/
theorem safe_vector_cast_idempotent (df out : DF)
    (h : safe_vector_cast df SCHEMA = .ok out) :
    safe_vector_cast out SCHEMA = .ok out := by
  have hnu : ∀ n dt, lookupSchema SCHEMA n = some (dt, true) → dt ≠ DType.utf8 := by
    intro n dt hl
    exact SCHEMA_no_nullable_utf8 (n, dt, true) (lookupSchema_mem SCHEMA n (dt, true) hl) rfl
  have hm : missingCols SCHEMA df = [] := by
    by_contra hm
    simp [safe_vector_cast, hm] at h
  rw [safe_vector_cast, if_pos hm] at h
  cases hcr : castRows SCHEMA df.header df.rows with
  | none => rw [hcr] at h; simp at h
  | some rows' =>
    rw [hcr] at h
    simp only [Except.ok.injEq] at h
    have hout : out = ⟨newHeader SCHEMA df.header, rows'⟩ := h.symm
    subst hout
    have hnames : colNames ⟨newHeader SCHEMA df.header, rows'⟩ = colNames df := by
      simp [colNames, newHeader_names]
    have hm2 : missingCols SCHEMA ⟨newHeader SCHEMA df.header, rows'⟩ = [] := by
      unfold missingCols
      rw [hnames]
      exact hm
    rw [safe_vector_cast, if_pos hm2]
    have hrows2 := castRows_idem SCHEMA hnu df.header df.rows rows' hcr
    simp only [hrows2]
    rw [newHeader_idem]

/-- C7 witness: idempotence applied to the cast of a concrete full-schema
table. -/
theorem safe_vector_cast_idempotent_witness :
    safe_vector_cast ⟨exHeader, [rowWith "IPC" Cell.null]⟩ SCHEMA
      = .ok ⟨exHeader, [rowWith "IPC" Cell.null]⟩ :=
  safe_vector_cast_idempotent exDFNull ⟨exHeader, [rowWith "IPC" Cell.null]⟩ (by rfl)

/-! ### Claim C10 -/

/-- C10: `safe_vector_cast` does not enforce nullability on values that are
already null — the per-column expression maps a true null to null for every
schema, field and column dtype (never failing on it), and under a successful
cast of the canonical schema every null cell of the input, including one
sitting in a non-nullable column, is still null at the same position of the
output. -/
theorem null_passes_nonnullable_cast :
    (∀ (schema : SchemaT) (name : String) (colDt : DType),
      castEntry schema name colDt Cell.null = some Cell.null)
    ∧ (∀ (df out : DF) (i j : Nat), safe_vector_cast df SCHEMA = .ok out →
      cellAt df i j = some Cell.null → cellAt out i j = some Cell.null) := by
  constructor
  · exact castEntry_null
  · intro df out i j hok hnull
    have hm : missingCols SCHEMA df = [] := by
      by_contra hm
      simp [safe_vector_cast, hm] at hok
    rw [safe_vector_cast, if_pos hm] at hok
    cases hcr : castRows SCHEMA df.header df.rows with
    | none => rw [hcr] at hok; simp at hok
    | some rows' =>
      rw [hcr] at hok
      simp only [Except.ok.injEq] at hok
      rw [← hok]
      obtain ⟨r, hr⟩ : ∃ r, df.rows.get? i = some r ∧ r.get? j = some Cell.null := by
        unfold cellAt at hnull
        cases hrow : df.rows.get? i with
        | none => rw [hrow] at hnull; simp at hnull
        | some r => rw [hrow] at hnull; exact ⟨r, rfl, hnull⟩
      obtain ⟨r', hr1, hr2⟩ := castRows_get SCHEMA df.header df.rows rows' i r hcr hr.1
      unfold cellAt
      simp only [hr1]
      exact castCells_get_null SCHEMA df.header r r' j hr2 hr.2

/-- C10 witness: an upstream-produced table whose non-nullable "IPC" column
holds a true null (from the sentinel-to-null substitution) casts
successfully, and the null remains in the IPC column (position 6) of the
output. -/
theorem null_passes_nonnullable_cast_witness :
    safe_vector_cast exDFNull SCHEMA = .ok ⟨exHeader, [rowWith "IPC" Cell.null]⟩
    ∧ lookupSchema SCHEMA "IPC" = some (DType.float64, false)
    ∧ cellAt ⟨exHeader, [rowWith "IPC" Cell.null]⟩ 0 6 = some Cell.null :=
  ⟨rfl, rfl,
   null_passes_nonnullable_cast.2 exDFNull ⟨exHeader, [rowWith "IPC" Cell.null]⟩ 0 6 (by rfl)
     (by rfl)⟩

/-! ### Claim C6 -/

/-- The cell comparison is total. -/
theorem cellLe_total (a b : Cell) : (cellLe a b || cellLe b a) = true := by
  unfold cellLe
  rcases Nat.lt_trichotomy (cellRank a) (cellRank b) with h | h | h
  · simp [h, Nat.lt_asymm h]
  · have h1 : ¬ cellRank a < cellRank b := by omega
    have h2 : ¬ cellRank b < cellRank a := by omega
    by_cases h3 : cellRank a = 2
    · have h4 : cellRank b = 2 := by omega
      simp only [h1, h2, h3, h4, lt_self_iff_false, if_false, if_true, ite_true, ite_false,
        Bool.or_eq_true, decide_eq_true_eq]
      exact le_total _ _
    · have h4 : ¬ cellRank b = 2 := by omega
      simp only [h1, h2, h3, h4, if_false, if_true, ite_true, ite_false, Bool.or_eq_true,
        decide_eq_true_eq]
      exact le_total _ _
  · simp [h, Nat.lt_asymm h]

/-- The cell comparison is transitive. -/
theorem cellLe_trans (a b c : Cell) (hab : cellLe a b = true) (hbc : cellLe b c = true) :
    cellLe a c = true := by
  unfold cellLe at hab hbc ⊢
  split_ifs at hab hbc ⊢ <;>
    simp only [decide_eq_true_eq, Bool.false_eq_true] at hab hbc ⊢ <;>
    first
      | rfl
      | omega
      | exact hab.elim
      | exact hbc.elim
      | exact le_trans hab hbc
      | trivial

/-- The row comparison by a column position is total. -/
theorem rowLe_total (i : Nat) (r1 r2 : List Cell) : (rowLe i r1 r2 || rowLe i r2 r1) = true :=
  cellLe_total _ _

/-- The row comparison by a column position is transitive. -/
theorem rowLe_trans (i : Nat) (r1 r2 r3 : List Cell) (h1 : rowLe i r1 r2 = true)
    (h2 : rowLe i r2 r3 = true) : rowLe i r1 r3 = true :=
  cellLe_trans _ _ _ h1 h2

/-- A pairwise-ordered row list passes the adjacent-pair sortedness check. -/
theorem pairwise_sortedRowsBy (le : List Cell → List Cell → Bool) :
    ∀ rows, List.Pairwise (fun a b => le a b = true) rows → sortedRowsBy le rows = true := by
  intro rows
  induction rows with
  | nil => intro hp; rfl
  | cons a rs ih =>
    intro hp
    cases rs with
    | nil => rfl
    | cons b rs' =>
      rw [sortedRowsBy]
      have hab : le a b = true := (List.pairwise_cons.mp hp).1 b (List.mem_cons_self _ _)
      have hrest := ih (List.pairwise_cons.mp hp).2
      simp [hab, hrest]

/-- C6: the batch merge is commutative in content — permuting the order of
the (non-empty, same-header) input tables yields merges whose row multisets
are permutations of each other (hence the same row set) — and the merged
output is always sorted by the Timestamp column ascending, regardless of
input order. -/
theorem batch_merge_commutative_sorted (hdr : List (String × DType)) (i : Nat)
    (ts1 ts2 : List DF) (hperm : ts1.Perm ts2) (hne : ts1 ≠ [])
    (hh : ∀ t ∈ ts1, t.header = hdr) (hidx : tsIndex hdr = some i) :
    ∃ m1 m2, batchMerge ts1 = some m1 ∧ batchMerge ts2 = some m2
      ∧ m1.rows.Perm m2.rows ∧ sortedByTs m1 = true ∧ sortedByTs m2 = true := by
  have hh2 : ∀ t ∈ ts2, t.header = hdr := fun u hu => hh u (hperm.mem_iff.mpr hu)
  have hne2 : ts2 ≠ [] := by
    intro hcon
    rw [hcon] at hperm
    have hlen := hperm.length_eq
    rw [List.length_nil] at hlen
    exact hne (List.length_eq_zero.mp hlen)
  obtain ⟨t1, ts1', rfl⟩ : ∃ t ts', ts1 = t :: ts' := by
    cases ts1 with
    | nil => exact absurd rfl hne
    | cons a b => exact ⟨a, b, rfl⟩
  obtain ⟨t2, ts2', rfl⟩ : ∃ t ts', ts2 = t :: ts' := by
    cases ts2 with
    | nil => exact absurd rfl hne2
    | cons a b => exact ⟨a, b, rfl⟩
  have hc1 := concatVR_const hdr t1 ts1' hh
  have hc2 := concatVR_const hdr t2 ts2' hh2
  refine ⟨⟨hdr, List.mergeSort ((List.map DF.rows (t1 :: ts1')).flatten) (rowLe i)⟩,
    ⟨hdr, List.mergeSort ((List.map DF.rows (t2 :: ts2')).flatten) (rowLe i)⟩, ?_, ?_, ?_, ?_, ?_⟩
  · simp only [batchMerge, hc1, sortByTimestamp, hidx]
  · simp only [batchMerge, hc2, sortByTimestamp, hidx]
  · have p1 := List.mergeSort_perm ((List.map DF.rows (t1 :: ts1')).flatten) (rowLe i)
    have p2 := List.mergeSort_perm ((List.map DF.rows (t2 :: ts2')).flatten) (rowLe i)
    have pj : ((List.map DF.rows (t1 :: ts1')).flatten).Perm
        ((List.map DF.rows (t2 :: ts2')).flatten) := (hperm.map DF.rows).flatten
    exact p1.trans (pj.trans p2.symm)
  · simp only [sortedByTs, hidx]
    exact pairwise_sortedRowsBy _ _
      (List.sorted_mergeSort (fun a b c => rowLe_trans i a b c) (fun a b => rowLe_total i a b) _)
  · simp only [sortedByTs, hidx]
    exact pairwise_sortedRowsBy _ _
      (List.sorted_mergeSort (fun a b c => rowLe_trans i a b c) (fun a b => rowLe_total i a b) _)

/-- C6 witness: spec scenario 4 — per-method files with timestamps
[T2, T1, T3] merged in either order give the same row set, sorted
ascending. -/
theorem batch_merge_commutative_sorted_witness :
    ∃ m1 m2, batchMerge [dfT2, dfT1, dfT3] = some m1 ∧ batchMerge [dfT1, dfT2, dfT3] = some m2
      ∧ m1.rows.Perm m2.rows ∧ sortedByTs m1 = true ∧ sortedByTs m2 = true :=
  batch_merge_commutative_sorted tsHeader 0 [dfT2, dfT1, dfT3] [dfT1, dfT2, dfT3]
    (by decide) (by decide) (by decide) rfl
